import Mathlib

/-!
Verification of the tinyml compiler front end (src/lexer.rs, src/parser.rs,
src/ast.rs, src/parse_error.rs) against its natural-language specification.

The lexer and parser are shallowly embedded below.  Rust strings are
modelled as `List Char` together with explicit UTF-8 byte arithmetic,
because `Lexer::tokenize` indexes `self.source` by *byte* offsets
(`&self.source[self.cur_idx..]`) while advancing `cur_idx` by *character*
counts; a byte slice that does not start on a character boundary panics in
Rust and is modelled here as `Except.error ()`.
-/

namespace Tinyml

/-- The `TokenType` enum of src/lexer.rs.  The final group of variants
(`typeChar` through `semiColon`) does not appear in the enum declared in
lexer.rs, but src/parser.rs pattern-matches on them
(`TokenType::TypeChar`, `TokenType::String(..)`, `TokenType::LeftBracket`,
`TokenType::CompEqual`, `TokenType::CompNotEqual`, `TokenType::SemiColon`,
`TokenType::SingleQuote`, ...), so they are required for the parser to be
well formed; they are included here and are never produced by the lexer,
whose keyword/operator dictionary is built only from the variants that
lexer.rs declares. -/
inductive TokenType where
  | let_ | fun_ | in_ | end_ | case | of_ | val | type_ | nil | none_ | some_
  | typeInt | typeBool | typeAlpha | if_ | then_ | else_
  | comment | openComment | closeComment | arrow | leftParen | rightParen
  | equal | fatArrow | comma | bar | cons | colon | wildcard
  | plus | minus | multiply | divide | strictLess | less | strictGreater | greater
  | id (s : String)
  | bool (s : String)
  | integer (s : String)
  | float (s : String)
  | eof
  | error
  | typeChar | typeString | singleQuote
  | string (s : String)
  | leftBracket | rightBracket | compEqual | compNotEqual | semiColon
deriving Repr

/-- Variant discriminant of a `TokenType`, used only to build a decidable
equality (Rust's derived `PartialEq`) whose terms stay small. -/
def TokenType.tag : TokenType → Nat
  | .let_ => 0 | .fun_ => 1 | .in_ => 2 | .end_ => 3 | .case => 4 | .of_ => 5
  | .val => 6 | .type_ => 7 | .nil => 8 | .none_ => 9 | .some_ => 10
  | .typeInt => 11 | .typeBool => 12 | .typeAlpha => 13 | .if_ => 14
  | .then_ => 15 | .else_ => 16 | .comment => 17 | .openComment => 18
  | .closeComment => 19 | .arrow => 20 | .leftParen => 21 | .rightParen => 22
  | .equal => 23 | .fatArrow => 24 | .comma => 25 | .bar => 26 | .cons => 27
  | .colon => 28 | .wildcard => 29 | .plus => 30 | .minus => 31
  | .multiply => 32 | .divide => 33 | .strictLess => 34 | .less => 35
  | .strictGreater => 36 | .greater => 37
  | .id _ => 38 | .bool _ => 39 | .integer _ => 40 | .float _ => 41
  | .eof => 42 | .error => 43 | .typeChar => 44 | .typeString => 45
  | .singleQuote => 46 | .string _ => 47 | .leftBracket => 48
  | .rightBracket => 49 | .compEqual => 50 | .compNotEqual => 51
  | .semiColon => 52

/-- The text carried by a `TokenType` variant, if any. -/
def TokenType.payload : TokenType → Option String
  | .id s | .bool s | .integer s | .float s | .string s => some s
  | _ => none

/-- Inverse of `tag`/`payload`, witnessing that the two projections
determine the variant. -/
def TokenType.ofTagPayload : Nat → Option String → Option TokenType
  | 0, none => some .let_
  | 1, none => some .fun_
  | 2, none => some .in_
  | 3, none => some .end_
  | 4, none => some .case
  | 5, none => some .of_
  | 6, none => some .val
  | 7, none => some .type_
  | 8, none => some .nil
  | 9, none => some .none_
  | 10, none => some .some_
  | 11, none => some .typeInt
  | 12, none => some .typeBool
  | 13, none => some .typeAlpha
  | 14, none => some .if_
  | 15, none => some .then_
  | 16, none => some .else_
  | 17, none => some .comment
  | 18, none => some .openComment
  | 19, none => some .closeComment
  | 20, none => some .arrow
  | 21, none => some .leftParen
  | 22, none => some .rightParen
  | 23, none => some .equal
  | 24, none => some .fatArrow
  | 25, none => some .comma
  | 26, none => some .bar
  | 27, none => some .cons
  | 28, none => some .colon
  | 29, none => some .wildcard
  | 30, none => some .plus
  | 31, none => some .minus
  | 32, none => some .multiply
  | 33, none => some .divide
  | 34, none => some .strictLess
  | 35, none => some .less
  | 36, none => some .strictGreater
  | 37, none => some .greater
  | 38, some s => some (.id s)
  | 39, some s => some (.bool s)
  | 40, some s => some (.integer s)
  | 41, some s => some (.float s)
  | 42, none => some .eof
  | 43, none => some .error
  | 44, none => some .typeChar
  | 45, none => some .typeString
  | 46, none => some .singleQuote
  | 47, some s => some (.string s)
  | 48, none => some .leftBracket
  | 49, none => some .rightBracket
  | 50, none => some .compEqual
  | 51, none => some .compNotEqual
  | 52, none => some .semiColon
  | _, _ => none

theorem TokenType.ofTagPayload_tag :
    ∀ a : TokenType, TokenType.ofTagPayload a.tag a.payload = some a := by
  intro a
  cases a <;> rfl

theorem TokenType.eq_of_tag_payload (a b : TokenType)
    (ht : a.tag = b.tag) (hp : a.payload = b.payload) : a = b := by
  have ha := TokenType.ofTagPayload_tag a
  rw [ht, hp, TokenType.ofTagPayload_tag b] at ha
  exact (Option.some.inj ha).symm

instance : DecidableEq TokenType := fun a b =>
  if h : a.tag = b.tag ∧ a.payload = b.payload then
    isTrue (TokenType.eq_of_tag_payload a b h.1 h.2)
  else
    isFalse (fun he => h (by cases he; exact ⟨rfl, rfl⟩))

/-- The `Token` struct of src/lexer.rs.  The `next : Option<Box<Token>>`
field is omitted: `tokenize` always constructs tokens with `next: None`
and the parser never reads it. -/
structure Token where
  line : Nat
  col : Nat
  len : Nat
  ty : TokenType
deriving DecidableEq, Repr

/-- Association-list lookup, modelling `HashMap::get` on the token
dictionary (all keys are distinct, so ordering is irrelevant). -/
def assocLookup : List (String × TokenType) → String → Option TokenType
  | [], _ => none
  | (k, v) :: rest, s => if s = k then some v else assocLookup rest s

/-- The keyword/operator dictionary built by `TokenDict::new` in
src/lexer.rs: every `TokenType` variant of the lexer's enum except
`Id`, `Integer`, `Bool`, `Float`, `Error` and `EOF`, keyed by its strum
`to_string` attribute (the `Comment` variant has no attribute, so strum's
derived `Display` uses the variant name "Comment"), plus the two explicit
entries mapping "true" and "false" to boolean-literal tokens. -/
def tokenDict : List (String × TokenType) := [
  ("let", .let_), ("fun", .fun_), ("in", .in_), ("end", .end_), ("case", .case),
  ("of", .of_), ("val", .val), ("type", .type_), ("nil", .nil), ("none", .none_),
  ("some", .some_), ("int", .typeInt), ("bool", .typeBool), ("'a", .typeAlpha),
  ("if", .if_), ("then", .then_), ("else", .else_),
  ("Comment", .comment),
  ("(*", .openComment), ("*)", .closeComment), ("->", .arrow),
  ("(", .leftParen), (")", .rightParen), ("=", .equal), ("=>", .fatArrow),
  (",", .comma), ("|", .bar), ("::", .cons), (":", .colon), ("_", .wildcard),
  ("+", .plus), ("-", .minus), ("*", .multiply), ("/", .divide),
  ("<", .strictLess), ("<=", .less), (">", .strictGreater), (">=", .greater),
  ("true", .bool "true"), ("false", .bool "false")]

/-- Rust's `char::is_whitespace` (the Unicode White_Space property; this
is the complete list of White_Space code points). -/
def rustIsWhitespace (c : Char) : Bool :=
  let n := c.toNat
  (9 ≤ n && n ≤ 13) || n = 32 || n = 0x85 || n = 0xA0 || n = 0x1680 ||
  (0x2000 ≤ n && n ≤ 0x200A) || n = 0x2028 || n = 0x2029 || n = 0x202F ||
  n = 0x205F || n = 0x3000

/-- Rust's `char::is_alphabetic` (the Unicode Alphabetic property),
rendered exactly on ASCII and Latin-1; code points above U+00FF are
classified non-alphabetic.  Every concrete input appearing in this
development stays within Latin-1, where this definition agrees with
Rust. -/
def rustIsAlphabetic (c : Char) : Bool :=
  let n := c.toNat
  (65 ≤ n && n ≤ 90) || (97 ≤ n && n ≤ 122) ||
  n = 0xAA || n = 0xB5 || n = 0xBA ||
  (0xC0 ≤ n && n ≤ 0xFF && !(n = 0xD7) && !(n = 0xF7))

/-- Rust's `char::is_alphanumeric` (Alphabetic or Numeric), rendered
exactly on ASCII and Latin-1 (the Latin-1 Numeric code points are the
superscript digits and vulgar fractions). -/
def rustIsAlphanumeric (c : Char) : Bool :=
  rustIsAlphabetic c || c.isDigit ||
  c.toNat = 0xB2 || c.toNat = 0xB3 || c.toNat = 0xB9 ||
  (0xBC ≤ c.toNat && c.toNat ≤ 0xBE)

/-- The character-collecting loop of `Lexer::match_id_or_kw`: take the
maximal prefix of alphanumeric-or-underscore characters. -/
def takeIdChars : List Char → List Char
  | [] => []
  | c :: cs => if rustIsAlphanumeric c || c = '_' then c :: takeIdChars cs else []

/-- `Lexer::match_id_or_kw` of src/lexer.rs: scan a maximal
alphanumeric/underscore run (the returned length counts characters, as in
the Rust loop's `len += 1`), then look the text up in the dictionary,
falling back to an identifier token. -/
def match_id_or_kw (chars : List Char) : Option TokenType × Nat :=
  let idkw := takeIdChars chars
  match assocLookup tokenDict (String.mk idkw) with
  | some tt => (some tt, idkw.length)
  | none => (some (TokenType.id (String.mk idkw)), idkw.length)

/-- The scanning loop of `Lexer::match_number`: collect digits; a first
`'.'` is consumed and sets the float flag; anything else stops the scan.
Returns the collected characters and the final flag. -/
def scanNum : List Char → Bool → List Char × Bool
  | [], isFloat => ([], isFloat)
  | c :: cs, isFloat =>
    if c.isDigit then
      let (r, f) := scanNum cs isFloat
      (c :: r, f)
    else if c = '.' && !isFloat then
      let (r, f) := scanNum cs true
      (c :: r, f)
    else ([], isFloat)

/-- `Lexer::match_number` of src/lexer.rs. -/
def match_number (chars : List Char) : Option TokenType × Nat :=
  let (number, isFloat) := scanNum chars false
  if number.isEmpty then (none, 0)
  else if isFloat then (some (TokenType.float (String.mk number)), number.length)
  else (some (TokenType.integer (String.mk number)), number.length)

/-- `Lexer::match_syntax` of src/lexer.rs: try the two-character lexeme
first, then fall back to the single character. -/
def match_syntax (chars : List Char) : Option TokenType × Nat :=
  match chars with
  | c1 :: c2 :: _ =>
    match assocLookup tokenDict (String.mk [c1, c2]) with
    | some tt => (some tt, 2)
    | none =>
      match assocLookup tokenDict (String.mk [c1]) with
      | some tt => (some tt, 1)
      | none => (none, 0)
  | [c1] =>
    match assocLookup tokenDict (String.mk [c1]) with
    | some tt => (some tt, 1)
    | none => (none, 0)
  | [] => (none, 0)

/-- The token-matching dispatch inside `Lexer::tokenize` (lines 298-308 of
src/lexer.rs): identifiers/keywords for alphabetic or `_` starts, numbers
for digit starts, punctuation/operators otherwise. -/
def lexDispatch (ch : Char) (rest : List Char) : Option TokenType × Nat :=
  if rustIsAlphabetic ch || ch = '_' then match_id_or_kw (ch :: rest)
  else if ch.isDigit then match_number (ch :: rest)
  else match_syntax (ch :: rest)

/-- UTF-8 byte length of a character sequence; models Rust's
`String::len`, which `Lexer::new` stores as `max_idx`. -/
def utf8Length (cs : List Char) : Nat :=
  cs.foldr (fun c n => c.utf8Size + n) 0

/-- Byte-slicing a UTF-8 string: `dropBytes cs n` is the character
sequence of `&s[n..]`, or `none` when `n` is not a character boundary — in
which case the Rust expression `&self.source[self.cur_idx..]` panics. -/
def dropBytes : List Char → Nat → Option (List Char)
  | cs, 0 => some cs
  | [], _ + 1 => none
  | c :: cs, n + 1 =>
    if c.utf8Size ≤ n + 1 then dropBytes cs (n + 1 - c.utf8Size) else none

/-- The main loop of `Lexer::tokenize` (src/lexer.rs lines 278-335),
with the loop state (`cur_idx`, `pos_line`, `pos_col`) passed explicitly
and the produced tokens accumulated in reverse order.  Rust's unbounded
`while` is rendered with a fuel parameter; `none` means the fuel ran out,
which never happens for the fuel chosen in `tokenize` because every
iteration advances `cur_idx` by at least one byte (see
`tokenizeFuel_ne_none`).  The `some []` branch mirrors the two `break`s
for an empty remainder, and the `none` result of `dropBytes` is the Rust
byte-slice panic. -/
def tokenizeFuel (src : List Char) (maxIdx : Nat) :
    Nat → Nat → Nat → Nat → List Token → Option (Except Unit (List Token))
  | 0, _, _, _, _ => none
  | fuel + 1, cur, line, col, acc =>
    if cur < maxIdx then
      match dropBytes src cur with
      | none => some (Except.error ())
      | some [] => some (Except.ok acc.reverse)
      | some (ch :: rest) =>
        if rustIsWhitespace ch then
          tokenizeFuel src maxIdx fuel (cur + 1)
            (if ch = '\n' then line + 1 else line)
            (if ch = '\n' then 1 else col + 1) acc
        else
          match lexDispatch ch rest with
          | (some tt, len) =>
            tokenizeFuel src maxIdx fuel (cur + len) line (col + len)
              (Token.mk line col len tt :: acc)
          | (none, _) =>
            tokenizeFuel src maxIdx fuel (cur + 1) line (col + 1) acc
    else some (Except.ok acc.reverse)

/-- `Lexer::tokenize` of src/lexer.rs, started from the state installed by
`Lexer::new` (`cur_idx = 0`, `pos_line = 1`, `pos_col = 1`,
`max_idx = source.len()` in bytes).  `Except.error ()` is the Rust panic
on a byte slice that does not start on a character boundary. -/
def tokenize (source : String) : Except Unit (List Token) :=
  let cs := source.data
  let maxIdx := utf8Length cs
  match tokenizeFuel cs maxIdx (maxIdx + 1) 0 1 1 [] with
  | some r => r
  | none => Except.error ()

/-- The `ErrKind` enum of src/parse_error.rs. -/
inductive ErrKind where
  | unexpectedToken
  | invalidPattern
  | invalidExpression
  | invalidDeclaration
  | unexpectedEOF
deriving DecidableEq, Repr

/-- The `ParseError` struct of src/parse_error.rs: kind, human-readable
message, and optional token index. -/
structure ParseError where
  kind : ErrKind
  msg : String
  pos : Option Nat
deriving DecidableEq, Repr

/-- Rust's derived `Debug` rendering of a `TokenType` value, used by the
`format!("... '{:?}' ...")` calls that build parser error messages. -/
def TokenType.dbg : TokenType → String
  | .let_ => "Let" | .fun_ => "Fun" | .in_ => "In" | .end_ => "End"
  | .case => "Case" | .of_ => "Of" | .val => "Val" | .type_ => "Type"
  | .nil => "Nil" | .none_ => "None" | .some_ => "Some"
  | .typeInt => "TypeInt" | .typeBool => "TypeBool" | .typeAlpha => "TypeAlpha"
  | .if_ => "If" | .then_ => "Then" | .else_ => "Else"
  | .comment => "Comment" | .openComment => "OpenComment"
  | .closeComment => "CloseComment" | .arrow => "Arrow"
  | .leftParen => "LeftParen" | .rightParen => "RightParen"
  | .equal => "Equal" | .fatArrow => "FatArrow" | .comma => "Comma"
  | .bar => "Bar" | .cons => "Cons" | .colon => "Colon"
  | .wildcard => "Wildcard" | .plus => "Plus" | .minus => "Minus"
  | .multiply => "Multiply" | .divide => "Divide"
  | .strictLess => "StrictLess" | .less => "Less"
  | .strictGreater => "StrictGreater" | .greater => "Greater"
  | .id s => "Id(\"" ++ s ++ "\")"
  | .bool s => "Bool(\"" ++ s ++ "\")"
  | .integer s => "Integer(\"" ++ s ++ "\")"
  | .float s => "Float(\"" ++ s ++ "\")"
  | .eof => "EOF" | .error => "Error"
  | .typeChar => "TypeChar" | .typeString => "TypeString"
  | .singleQuote => "SingleQuote"
  | .string s => "String(\"" ++ s ++ "\")"
  | .leftBracket => "LeftBracket" | .rightBracket => "RightBracket"
  | .compEqual => "CompEqual" | .compNotEqual => "CompNotEqual"
  | .semiColon => "SemiColon"

/-- The `BinOp` enum of src/ast.rs. -/
inductive BinOp where
  | add | sub | mul | div | lt | lte | gt | gte | eq | neq
deriving DecidableEq, Repr

/-- The `Type` enum of src/ast.rs (named `Ty` here because `Type` is a
Lean universe keyword). -/
inductive Ty where
  | int | bool | char | string
  | var (s : String)
  | arrow (t1 t2 : Ty)
  | product (t1 t2 : Ty)
deriving DecidableEq, Repr

/-- The `AstPattern` enum of src/ast.rs. -/
inductive AstPattern where
  | literal
  | id (s : String)
  | wildcard
  | var (s : String)
  | pair (p1 p2 : AstPattern)
deriving DecidableEq, Repr

/-- The `AstNode` enum of src/ast.rs.  The `literal` variant (carrying a
`LiteralValue`) is constructed by src/parser.rs (`AstNode::Literal`) even
though src/ast.rs omits it from the enum; it is included so that the
parser is well formed.  `If` and `Let` are rendered `ifE`/`letE` because
`if` and `let` are Lean keywords. -/
inductive LiteralValue where
  | integer (s : String)
  | boolean (s : String)
  | string (s : String)
deriving DecidableEq, Repr

inductive AstNode where
  | program (decls : List AstNode)
  | valDecl (pat : AstPattern) (typ : Option Ty) (exp : AstNode)
  | funDecl (name : String) (clauses : List (AstPattern × AstNode)) (typ : Option Ty)
  | ifE (cond then_ else_ : AstNode)
  | letE (decl body : AstNode)
  | fn (clauses : List (AstPattern × AstNode))
  | binOp (left : AstNode) (op : BinOp) (right : AstNode)
  | app (func arg : AstNode)
  | id (s : String)
  | var (s : String)
  | tuple (xs : List AstNode)
  | list (xs : List AstNode)
  | literal (v : LiteralValue)

/-- Result of running one parsing method of the mutable `Parser` struct of
src/parser.rs: either a value or a `ParseError`, together with the final
`self.pos`.  The position is retained in the error case because Rust's `?`
propagation does not roll back `self.pos`. -/
inductive PResult (α : Type) where
  | ok (a : α) (pos : Nat)
  | err (e : ParseError) (pos : Nat)
deriving Repr

/-- A parsing method of `Parser`: a transformer of the cursor `self.pos`.
The token vector is passed separately (it is never mutated). -/
def PM (α : Type) : Type := Nat → PResult α

def pmPure {α : Type} (a : α) : PM α := fun p => .ok a p

/-- Sequencing of parsing methods; an error propagates (as with Rust's `?`
operator) and keeps the cursor where the failing method left it. -/
def pmBind {α β : Type} (x : PM α) (f : α → PM β) : PM β := fun p =>
  match x p with
  | .ok a q => f a q
  | .err e q => .err e q

instance monadPM : Monad PM where
  pure := pmPure
  bind := pmBind

theorem pm_bind_def {α β : Type} (x : PM α) (f : α → PM β) :
    (x >>= f) = pmBind x f := rfl

theorem pm_pure_def {α : Type} (a : α) : (pure a : PM α) = pmPure a := rfl

/-- Read `self.pos` (the `let pos = self.pos;` lines of src/parser.rs). -/
def getPos : PM Nat := fun p => .ok p p

/-- Return a `ParseError` (the `parse_error!` macro of src/lib.rs with an
explicit position). -/
def throwPE {α : Type} (e : ParseError) : PM α := fun p => .err e p

/-- Error returned when the fuel bounding Rust's unbounded recursion runs
out; concrete claims are evaluated with ample fuel and universal claims
only assume an `ok` result, so this value is never observed. -/
def fuelErr : ParseError :=
  ParseError.mk ErrKind.unexpectedEOF "recursion limit reached" none

/-- `Parser::peek` of src/parser.rs. -/
def peek (ts : List Token) : PM (Option TokenType) := fun p =>
  .ok ((ts.get? p).map Token.ty) p

/-- `Parser::consume` of src/parser.rs: return the current token and
advance, or return `none` at the end of the tokens. -/
def consume (ts : List Token) : PM (Option Token) := fun p =>
  match ts.get? p with
  | some t => .ok (some t) (p + 1)
  | none => .ok none p

/-- `Parser::expect` of src/parser.rs: record the entry position, consume
one token, and fail (with the entry position stored in the error) if it is
not the expected one.  Note that the consumed position survives a
failure. -/
def expect (ts : List Token) (expected : TokenType) : PM Unit := do
  let pos ← getPos
  let tok ← consume ts
  match tok with
  | some token =>
    if token.ty = expected then pure ()
    else throwPE (ParseError.mk ErrKind.unexpectedToken
      ("Expected '" ++ expected.dbg ++ "', got '" ++ token.ty.dbg ++ "'") (some pos))
  | none =>
    throwPE (ParseError.mk ErrKind.unexpectedToken
      ("Expected '" ++ expected.dbg ++ "', got EOF") (some pos))

/-- The comparison-operator table of `Parser::parse_comp_expr`
(src/parser.rs lines 289-297): note that `Less` (the lexeme `<=`) maps to
`Lt`, `StrictLess` (the lexeme `<`) maps to `Lte`, and both `CompEqual`
and `CompNotEqual` map to `Eq`. -/
def compOpOf : Option TokenType → Option BinOp
  | some .less => some BinOp.lt
  | some .strictLess => some BinOp.lte
  | some .greater => some BinOp.gt
  | some .strictGreater => some BinOp.gte
  | some .compEqual => some BinOp.eq
  | some .compNotEqual => some BinOp.eq
  | _ => none

/-- `Parser::could_start_atom` of src/parser.rs. -/
def could_start_atom (ts : List Token) : PM Bool := do
  let pk ← peek ts
  pure (match pk with
    | some (.integer _) | some (.bool _) | some (.string _) | some (.id _)
    | some .leftParen | some .leftBracket => true
    | _ => false)

/-!
The recursive-descent parsing methods of src/parser.rs.  Rust's unbounded
mutual recursion is rendered with a fuel parameter that decreases at
every call; the unnamed `loop`/`while` statements inside the methods
become the auxiliary `..._loop` functions with the same fuel discipline.
-/

mutual

/-- `Parser::parse_type` of src/parser.rs. -/
def parse_type (ts : List Token) (fuel : Nat) : PM Ty :=
  match fuel with
  | 0 => throwPE fuelErr
  | fuel + 1 => do
    let pos ← getPos
    let pk ← peek ts
    let prefixTy ← (match pk with
      | some .typeInt => do
        let _ ← consume ts
        pure Ty.int
      | some .typeBool => do
        let _ ← consume ts
        pure Ty.bool
      | some .typeChar => do
        let _ ← consume ts
        pure Ty.char
      | some .typeString => do
        let _ ← consume ts
        pure Ty.string
      | some .singleQuote => do
        let _ ← consume ts
        let pk2 ← peek ts
        match pk2 with
        | some (.id i) => do
          let _ ← consume ts
          pure (Ty.var i)
        | some t =>
          throwPE (ParseError.mk ErrKind.unexpectedToken
            ("Expected identifier for type name, recieved: " ++ t.dbg) (some pos))
        | none =>
          throwPE (ParseError.mk ErrKind.unexpectedToken "Unexpected EOF" (some pos))
      | some .leftParen => do
        let _ ← consume ts
        let type1 ← parse_type ts fuel
        expect ts .comma
        let type2 ← parse_type ts fuel
        expect ts .rightParen
        pure (Ty.product type1 type2)
      | some t =>
        throwPE (ParseError.mk ErrKind.unexpectedToken
          ("Expected a type, got " ++ t.dbg) (some pos))
      | none =>
        throwPE (ParseError.mk ErrKind.unexpectedToken
          "Expected a type, got EOF" (some pos)) : PM Ty)
    let pk2 ← peek ts
    match pk2 with
    | some .arrow => do
      let _ ← consume ts
      let returnType ← parse_type ts fuel
      pure (Ty.arrow prefixTy returnType)
    | some .multiply => do
      let _ ← consume ts
      let secondType ← parse_type ts fuel
      pure (Ty.product prefixTy secondType)
    | _ => pure prefixTy

/-- `Parser::parse_atom` of src/parser.rs. -/
def parse_atom (ts : List Token) (fuel : Nat) : PM AstNode :=
  match fuel with
  | 0 => throwPE fuelErr
  | fuel + 1 => do
    let pos ← getPos
    let pk ← peek ts
    match pk with
    | some (.integer n) => do
      let _ ← consume ts
      pure (AstNode.literal (LiteralValue.integer n))
    | some (.bool b) => do
      let _ ← consume ts
      pure (AstNode.literal (LiteralValue.boolean b))
    | some (.string s) => do
      let _ ← consume ts
      pure (AstNode.literal (LiteralValue.string s))
    | some (.id i) => do
      let _ ← consume ts
      pure (AstNode.id i)
    | some .leftParen => do
      let _ ← consume ts
      let pk2 ← peek ts
      if pk2 = some TokenType.rightParen then do
        let _ ← consume ts
        pure (AstNode.tuple [])
      else do
        let expr ← parse_expr ts fuel
        let pk3 ← peek ts
        if pk3 = some TokenType.comma then do
          let _ ← consume ts
          let expr2 ← parse_expr ts fuel
          let rest ← parse_comma_exprs ts fuel
          expect ts .rightParen
          pure (AstNode.tuple (expr :: expr2 :: rest))
        else do
          expect ts .rightParen
          pure expr
    | some .leftBracket => do
      let _ ← consume ts
      let pk2 ← peek ts
      if pk2 = some TokenType.rightBracket then do
        let _ ← consume ts
        pure (AstNode.list [])
      else do
        let item ← parse_expr ts fuel
        let rest ← parse_comma_exprs ts fuel
        expect ts .rightBracket
        pure (AstNode.list (item :: rest))
    | some t =>
      throwPE (ParseError.mk ErrKind.unexpectedToken
        ("Expected an atom, got " ++ t.dbg) (some pos))
    | none =>
      throwPE (ParseError.mk ErrKind.unexpectedToken
        "Expected an atom, got EOF" (some pos))

/-- The `while let Some(TokenType::Comma) = self.peek()` loops of
`Parser::parse_atom` (tuple and list elements). -/
def parse_comma_exprs (ts : List Token) (fuel : Nat) : PM (List AstNode) :=
  match fuel with
  | 0 => throwPE fuelErr
  | fuel + 1 => do
    let pk ← peek ts
    if pk = some TokenType.comma then do
      let _ ← consume ts
      let e ← parse_expr ts fuel
      let rest ← parse_comma_exprs ts fuel
      pure (e :: rest)
    else pure []

/-- `Parser::parse_app_expr` of src/parser.rs. -/
def parse_app_expr (ts : List Token) (fuel : Nat) : PM AstNode :=
  match fuel with
  | 0 => throwPE fuelErr
  | fuel + 1 => do
    let expr ← parse_atom ts fuel
    parse_app_loop ts fuel expr

/-- The `while self.could_start_atom()` loop of `Parser::parse_app_expr`. -/
def parse_app_loop (ts : List Token) (fuel : Nat) (expr : AstNode) : PM AstNode :=
  match fuel with
  | 0 => throwPE fuelErr
  | fuel + 1 => do
    let b ← could_start_atom ts
    if b then do
      let atom ← parse_atom ts fuel
      parse_app_loop ts fuel (AstNode.app expr atom)
    else pure expr

/-- `Parser::parse_mul_expr` of src/parser.rs. -/
def parse_mul_expr (ts : List Token) (fuel : Nat) : PM AstNode :=
  match fuel with
  | 0 => throwPE fuelErr
  | fuel + 1 => do
    let left ← parse_app_expr ts fuel
    parse_mul_loop ts fuel left

/-- The operator loop of `Parser::parse_mul_expr`. -/
def parse_mul_loop (ts : List Token) (fuel : Nat) (left : AstNode) : PM AstNode :=
  match fuel with
  | 0 => throwPE fuelErr
  | fuel + 1 => do
    let pk ← peek ts
    match pk with
    | some .multiply => do
      let _ ← consume ts
      let right ← parse_app_expr ts fuel
      parse_mul_loop ts fuel (AstNode.binOp left BinOp.mul right)
    | some .divide => do
      let _ ← consume ts
      let right ← parse_app_expr ts fuel
      parse_mul_loop ts fuel (AstNode.binOp left BinOp.div right)
    | _ => pure left

/-- `Parser::parse_add_expr` of src/parser.rs. -/
def parse_add_expr (ts : List Token) (fuel : Nat) : PM AstNode :=
  match fuel with
  | 0 => throwPE fuelErr
  | fuel + 1 => do
    let left ← parse_mul_expr ts fuel
    parse_add_loop ts fuel left

/-- The operator loop of `Parser::parse_add_expr`. -/
def parse_add_loop (ts : List Token) (fuel : Nat) (left : AstNode) : PM AstNode :=
  match fuel with
  | 0 => throwPE fuelErr
  | fuel + 1 => do
    let pk ← peek ts
    match pk with
    | some .plus => do
      let _ ← consume ts
      let right ← parse_mul_expr ts fuel
      parse_add_loop ts fuel (AstNode.binOp left BinOp.add right)
    | some .minus => do
      let _ ← consume ts
      let right ← parse_mul_expr ts fuel
      parse_add_loop ts fuel (AstNode.binOp left BinOp.sub right)
    | _ => pure left

/-- `Parser::parse_comp_expr` of src/parser.rs. -/
def parse_comp_expr (ts : List Token) (fuel : Nat) : PM AstNode :=
  match fuel with
  | 0 => throwPE fuelErr
  | fuel + 1 => do
    let left ← parse_add_expr ts fuel
    parse_comp_loop ts fuel left

/-- The operator loop of `Parser::parse_comp_expr`, driven by the
`compOpOf` table. -/
def parse_comp_loop (ts : List Token) (fuel : Nat) (left : AstNode) : PM AstNode :=
  match fuel with
  | 0 => throwPE fuelErr
  | fuel + 1 => do
    let pk ← peek ts
    match compOpOf pk with
    | some binOp => do
      let _ ← consume ts
      let right ← parse_add_expr ts fuel
      parse_comp_loop ts fuel (AstNode.binOp left binOp right)
    | none => pure left

/-- `Parser::parse_match` of src/parser.rs. -/
def parse_match (ts : List Token) (fuel : Nat) : PM (List (AstPattern × AstNode)) :=
  match fuel with
  | 0 => throwPE fuelErr
  | fuel + 1 => do
    let pos ← getPos
    let pat ← parse_pattern ts fuel
    expect ts .fatArrow
    let expr ← parse_expr ts fuel
    let rest ← parse_match_loop ts fuel
    let arms := (pat, expr) :: rest
    if arms.isEmpty then
      throwPE (ParseError.mk ErrKind.unexpectedToken
        "Match expression must have at least one arm" (some pos))
    else pure arms

/-- The `while let Some(TokenType::Bar) = self.peek()` loop of
`Parser::parse_match`. -/
def parse_match_loop (ts : List Token) (fuel : Nat) : PM (List (AstPattern × AstNode)) :=
  match fuel with
  | 0 => throwPE fuelErr
  | fuel + 1 => do
    let pk ← peek ts
    if pk = some TokenType.bar then do
      let _ ← consume ts
      let pat ← parse_pattern ts fuel
      expect ts .fatArrow
      let expr ← parse_expr ts fuel
      let rest ← parse_match_loop ts fuel
      pure ((pat, expr) :: rest)
    else pure []

/-- `Parser::parse_expr` of src/parser.rs. -/
def parse_expr (ts : List Token) (fuel : Nat) : PM AstNode :=
  match fuel with
  | 0 => throwPE fuelErr
  | fuel + 1 => do
    let pos ← getPos
    let pk ← peek ts
    match pk with
    | some .if_ => do
      let _ ← consume ts
      let cond ← parse_expr ts fuel
      expect ts .then_
      let thenExpr ← parse_expr ts fuel
      expect ts .else_
      let elseExpr ← parse_expr ts fuel
      pure (AstNode.ifE cond thenExpr elseExpr)
    | some .let_ => do
      let _ ← consume ts
      let decl ← parse_decl ts fuel
      expect ts .in_
      let body ← parse_expr ts fuel
      expect ts .end_
      pure (AstNode.letE decl body)
    | some .fun_ => do
      let _ ← consume ts
      let clauses ← parse_match ts fuel
      pure (AstNode.fn clauses)
    | some _ => parse_comp_expr ts fuel
    | none => throwPE (ParseError.mk ErrKind.unexpectedToken "TODO" (some pos))

/-- `Parser::parse_decl` of src/parser.rs. -/
def parse_decl (ts : List Token) (fuel : Nat) : PM AstNode :=
  match fuel with
  | 0 => throwPE fuelErr
  | fuel + 1 => do
    let pos ← getPos
    let pk ← peek ts
    match pk with
    | some .val => do
      let _ ← consume ts
      let pat ← parse_pattern ts fuel
      let pk2 ← peek ts
      let typ ← (if pk2 = some TokenType.colon then do
          let _ ← consume ts
          let t ← parse_type ts fuel
          pure (some t)
        else pure none : PM (Option Ty))
      expect ts .equal
      let exp ← parse_expr ts fuel
      pure (AstNode.valDecl pat typ exp)
    | some .fun_ => do
      let _ ← consume ts
      let pk2 ← peek ts
      match pk2 with
      | some (.id name) => do
        let _ ← consume ts
        let clauses ← parse_match ts fuel
        let pk3 ← peek ts
        let typ ← (if pk3 = some TokenType.colon then do
            let _ ← consume ts
            let t ← parse_type ts fuel
            pure (some t)
          else pure none : PM (Option Ty))
        pure (AstNode.funDecl name clauses typ)
      | _ =>
        throwPE (ParseError.mk ErrKind.unexpectedToken
          "Expected identifier after 'fun'" (some pos))
    | some t =>
      throwPE (ParseError.mk ErrKind.unexpectedToken
        ("Expected 'val' or 'fun', got '" ++ t.dbg ++ "'") (some pos))
    | none =>
      throwPE (ParseError.mk ErrKind.unexpectedEOF
        "Expected end of input after decl" (some pos))

/-- `Parser::parse_decls` of src/parser.rs: one declaration followed by
further semicolon-separated declarations.  (The `decls.is_empty()` check
of the Rust code is preserved although the list is nonempty by
construction.) -/
def parse_decls (ts : List Token) (fuel : Nat) : PM (List AstNode) :=
  match fuel with
  | 0 => throwPE fuelErr
  | fuel + 1 => do
    let pos ← getPos
    let dec ← parse_decl ts fuel
    let rest ← parse_decls_loop ts fuel
    let decls := dec :: rest
    if decls.isEmpty then
      throwPE (ParseError.mk ErrKind.invalidDeclaration
        "Expected at least one declaration." (some pos))
    else pure decls

/-- The semicolon-continuation loop of `Parser::parse_decls`. -/
def parse_decls_loop (ts : List Token) (fuel : Nat) : PM (List AstNode) :=
  match fuel with
  | 0 => throwPE fuelErr
  | fuel + 1 => do
    let pk ← peek ts
    if pk = some TokenType.semiColon then do
      let _ ← consume ts
      let dec ← parse_decl ts fuel
      let rest ← parse_decls_loop ts fuel
      pure (dec :: rest)
    else pure []

/-- `Parser::parse_pattern` of src/parser.rs. -/
def parse_pattern (ts : List Token) (fuel : Nat) : PM AstPattern :=
  match fuel with
  | 0 => throwPE fuelErr
  | fuel + 1 => do
    let pos ← getPos
    let pk ← peek ts
    match pk with
    | some .wildcard => do
      let _ ← consume ts
      pure AstPattern.wildcard
    | some .leftParen => do
      let _ ← consume ts
      let p1 ← parse_pattern ts fuel
      expect ts .comma
      let p2 ← parse_pattern ts fuel
      expect ts .rightParen
      pure (AstPattern.pair p1 p2)
    | some (.id i) => do
      let _ ← consume ts
      pure (AstPattern.id i)
    | some (.integer _) => do
      let _ ← consume ts
      pure AstPattern.literal
    | some (.bool _) => do
      let _ ← consume ts
      pure AstPattern.literal
    | some (.string _) => do
      let _ ← consume ts
      pure AstPattern.literal
    | some .singleQuote => do
      let _ ← consume ts
      let pk2 ← peek ts
      match pk2 with
      | some (.id i) => do
        let _ ← consume ts
        pure (AstPattern.var i)
      | _ =>
        throwPE (ParseError.mk ErrKind.unexpectedToken
          "Expected identifier after single quote in pattern" (some pos))
    | some t =>
      throwPE (ParseError.mk ErrKind.unexpectedToken
        ("Invalid pattern, unexpected token: " ++ t.dbg) (some pos))
    | none =>
      throwPE (ParseError.mk ErrKind.unexpectedToken "Unexpected EOF" (some pos))

end

/-- The `while self.peek().is_some()` loop of `Parser::parse`, with the
accumulated declarations passed explicitly. -/
def parse_loop (ts : List Token) (fuel : Nat) (acc : List AstNode) : PM (List AstNode) :=
  match fuel with
  | 0 => throwPE fuelErr
  | fuel + 1 => do
    let pk ← peek ts
    match pk with
    | some _ => do
      let ds ← parse_decls ts fuel
      parse_loop ts fuel (acc ++ ds)
    | none => pure acc

/-- `Parser::parse` of src/parser.rs, started at `pos = 0` as installed by
`Parser::new` (its debug print of the token list is ignored). -/
def parse (ts : List Token) (fuel : Nat) : PM AstNode := do
  let decls ← parse_loop ts fuel []
  pure (AstNode.program decls)

/-!
Helper lemmas about the lexer.  `TokenType.eof` and `TokenType.error` are
not in the dictionary, and every token the dispatch can produce comes from
the dictionary or is an `id`/`integer`/`float` token, so neither variant
can ever appear in `tokenize`'s output.
-/

theorem tokenDict_vals :
    ∀ p ∈ tokenDict, p.2 ≠ TokenType.eof ∧ p.2 ≠ TokenType.error := by
  decide

theorem assocLookup_mem (l : List (String × TokenType)) (s : String)
    (tt : TokenType) (h : assocLookup l s = some tt) : ∃ k, (k, tt) ∈ l := by
  induction l with
  | nil => simp [assocLookup] at h
  | cons p rest ih =>
    rcases p with ⟨k, v⟩
    by_cases hs : s = k
    · simp [assocLookup, hs] at h
      exact ⟨k, by simp [h]⟩
    · simp [assocLookup, hs] at h
      obtain ⟨k', hk⟩ := ih h
      exact ⟨k', by simp [hk]⟩

theorem tokenDictLookup_ok (s : String) (tt : TokenType)
    (h : assocLookup tokenDict s = some tt) :
    tt ≠ TokenType.eof ∧ tt ≠ TokenType.error := by
  obtain ⟨k, hk⟩ := assocLookup_mem _ _ _ h
  exact tokenDict_vals _ hk

theorem match_id_or_kw_ok (chars : List Char) (tt : TokenType) (len : Nat)
    (h : match_id_or_kw chars = (some tt, len)) :
    tt ≠ TokenType.eof ∧ tt ≠ TokenType.error := by
  simp only [match_id_or_kw] at h
  split at h <;> simp only [Prod.mk.injEq, Option.some.injEq] at h
  · rename_i tt' heq
    obtain ⟨rfl, -⟩ := h
    exact tokenDictLookup_ok _ _ heq
  · obtain ⟨rfl, -⟩ := h
    exact ⟨by simp, by simp⟩

theorem match_number_ok (chars : List Char) (tt : TokenType) (len : Nat)
    (h : match_number chars = (some tt, len)) :
    tt ≠ TokenType.eof ∧ tt ≠ TokenType.error := by
  simp only [match_number] at h
  split at h
  · simp at h
  · split at h <;> simp only [Prod.mk.injEq, Option.some.injEq] at h <;>
      obtain ⟨rfl, -⟩ := h <;> exact ⟨by simp, by simp⟩

theorem match_syntax_ok (chars : List Char) (tt : TokenType) (len : Nat)
    (h : match_syntax chars = (some tt, len)) :
    tt ≠ TokenType.eof ∧ tt ≠ TokenType.error := by
  rcases chars with _ | ⟨c1, cs⟩
  · simp [ match_syntax] at h
  · rcases cs with _ | ⟨c2, rest⟩
    · simp only [ match_syntax] at h
      split at h
      · rename_i tt1 heq
        simp only [Prod.mk.injEq, Option.some.injEq] at h
        obtain ⟨rfl, -⟩ := h
        exact tokenDictLookup_ok _ _ heq
      · simp at h
    · simp only [ match_syntax] at h
      split at h
      · rename_i tt2 heq
        simp only [Prod.mk.injEq, Option.some.injEq] at h
        obtain ⟨rfl, -⟩ := h
        exact tokenDictLookup_ok _ _ heq
      · split at h
        · rename_i tt1 heq
          simp only [Prod.mk.injEq, Option.some.injEq] at h
          obtain ⟨rfl, -⟩ := h
          exact tokenDictLookup_ok _ _ heq
        · simp at h

theorem lexDispatch_ok (ch : Char) (rest : List Char) (tt : TokenType) (len : Nat)
    (h : lexDispatch ch rest = (some tt, len)) :
    tt ≠ TokenType.eof ∧ tt ≠ TokenType.error := by
  unfold lexDispatch at h
  by_cases h1 : (rustIsAlphabetic ch || ch = '_') = true
  · rw [if_pos h1] at h
    exact match_id_or_kw_ok _ _ _ h
  · rw [if_neg h1] at h
    by_cases h2 : ch.isDigit = true
    · rw [if_pos h2] at h
      exact match_number_ok _ _ _ h
    · rw [if_neg h2] at h
      exact match_syntax_ok _ _ _ h

theorem rustIsAlphabetic_alphanumeric (ch : Char)
    (h : rustIsAlphabetic ch = true) : rustIsAlphanumeric ch = true := by
  simp [rustIsAlphanumeric, h]

theorem lexDispatch_len_pos (ch : Char) (rest : List Char) (tt : TokenType) (len : Nat)
    (h : lexDispatch ch rest = (some tt, len)) : 1 ≤ len := by
  unfold lexDispatch at h
  by_cases h1 : (rustIsAlphabetic ch || ch = '_') = true
  · rw [if_pos h1] at h
    have hfirst : (rustIsAlphanumeric ch || ch = '_') = true := by
      rcases Bool.or_eq_true_iff.mp h1 with ha | hu
      · simp [rustIsAlphabetic_alphanumeric ch ha]
      · simp [hu]
    have htake : takeIdChars (ch :: rest) = ch :: takeIdChars rest := by
      simp [takeIdChars, hfirst]
    simp only [match_id_or_kw, htake] at h
    split at h <;> simp only [Prod.mk.injEq, Option.some.injEq] at h <;>
      obtain ⟨-, hlen⟩ := h <;> simp only [List.length_cons] at hlen <;> omega
  · rw [if_neg h1] at h
    by_cases h2 : ch.isDigit = true
    · rw [if_pos h2] at h
      rcases hsf : scanNum rest false with ⟨r, f⟩
      have hscan : scanNum (ch :: rest) false = (ch :: r, f) := by
        simp [scanNum, h2, hsf]
      by_cases hf : f = true
      · simp [match_number, hscan, hf] at h
        obtain ⟨-, hlen⟩ := h
        omega
      · simp [match_number, hscan, hf] at h
        obtain ⟨-, hlen⟩ := h
        omega
    · rw [if_neg h2] at h
      rcases rest with _ | ⟨c2, rest'⟩
      · simp only [ match_syntax] at h
        split at h
        · simp only [Prod.mk.injEq, Option.some.injEq] at h
          omega
        · simp at h
      · simp only [ match_syntax] at h
        split at h
        · simp only [Prod.mk.injEq, Option.some.injEq] at h
          omega
        · split at h
          · simp only [Prod.mk.injEq, Option.some.injEq] at h
            omega
          · simp at h

/-- The fuel installed by `tokenize` never runs out: every loop iteration
advances `cur_idx` by at least one byte. -/
theorem tokenizeFuel_ne_none (src : List Char) (maxIdx : Nat) :
    ∀ fuel cur line col acc, maxIdx - cur < fuel →
      tokenizeFuel src maxIdx fuel cur line col acc ≠ none := by
  intro fuel
  induction fuel with
  | zero => intro cur line col acc h; omega
  | succ f ih =>
    intro cur line col acc h
    rw [tokenizeFuel]
    split
    · rename_i hc
      split
      · simp
      · simp
      · rename_i ch rest heq
        split
        · exact ih (cur + 1) _ _ acc (by omega)
        · split
          · rename_i tt len hl
            have hlen := lexDispatch_len_pos ch rest tt len hl
            exact ih (cur + len) _ _ _ (by omega)
          · exact ih (cur + 1) _ _ acc (by omega)
    · simp

/-- Invariant of the `tokenize` loop: any property guaranteed by the
token-matching dispatch holds of every token in a successful output. -/
theorem tokenizeFuel_ok_forall (P : TokenType → Prop)
    (hP : ∀ ch rest tt len, lexDispatch ch rest = (some tt, len) → P tt)
    (src : List Char) (maxIdx : Nat) :
    ∀ fuel cur line col acc ts,
      tokenizeFuel src maxIdx fuel cur line col acc = some (Except.ok ts) →
      (∀ t ∈ acc, P t.ty) → ∀ t ∈ ts, P t.ty := by
  intro fuel
  induction fuel with
  | zero => intro cur line col acc ts h; simp [tokenizeFuel] at h
  | succ f ih =>
    intro cur line col acc ts h hacc
    rw [tokenizeFuel] at h
    split at h
    · split at h
      · simp at h
      · simp only [Option.some.injEq, Except.ok.injEq] at h
        subst h
        intro t ht
        exact hacc t (List.mem_reverse.mp ht)
      · rename_i ch rest heq
        split at h
        · exact ih _ _ _ _ _ h hacc
        · split at h
          · rename_i tt len hl
            refine ih _ _ _ _ _ h ?_
            intro t ht
            rcases List.mem_cons.mp ht with h1 | h1
            · subst h1
              exact hP ch rest tt len hl
            · exact hacc t h1
          · exact ih _ _ _ _ _ h hacc
    · simp only [Option.some.injEq, Except.ok.injEq] at h
      subst h
      intro t ht
      exact hacc t (List.mem_reverse.mp ht)

theorem tokenize_ok_forall (P : TokenType → Prop)
    (hP : ∀ ch rest tt len, lexDispatch ch rest = (some tt, len) → P tt)
    (s : String) (ts : List Token) (h : tokenize s = Except.ok ts) :
    ∀ t ∈ ts, P t.ty := by
  simp only [tokenize] at h
  rcases hf : tokenizeFuel s.data (utf8Length s.data) (utf8Length s.data + 1)
      0 1 1 [] with _ | r
  · rw [hf] at h
    simp at h
  · rw [hf] at h
    subst h
    exact tokenizeFuel_ok_forall P hP s.data (utf8Length s.data) _ 0 1 1 [] ts hf
      (by intro t ht; simp at ht)

/-- C1: the claim fails on the code — `Lexer::tokenize` never constructs
an EOF token at all (no branch of the loop produces `TokenType::EOF`), so
the returned sequence does not end with one.  Amended statement: for every
input on which `tokenize` returns, its output contains no EOF token; the
end of input is marked only by the end of the returned vector. -/
theorem tokenize_no_eof_token (s : String) (ts : List Token)
    (h : tokenize s = Except.ok ts) : TokenType.eof ∉ ts.map Token.ty := by
  intro hmem
  rw [List.mem_map] at hmem
  obtain ⟨t, ht, hty⟩ := hmem
  exact (tokenize_ok_forall (fun tt => tt ≠ TokenType.eof)
    (fun ch rest tt len hl => (lexDispatch_ok ch rest tt len hl).1)
    s ts h t ht) hty

theorem tokenize_no_eof_token_witness :
    TokenType.eof ∉ List.map Token.ty [Token.mk 1 1 3 TokenType.val,
      Token.mk 1 5 1 (TokenType.id "x"), Token.mk 1 7 1 TokenType.equal,
      Token.mk 1 9 1 (TokenType.integer "1")] :=
  tokenize_no_eof_token "val x = 1" _ rfl

/-- C1 counterexample: tokenizing `"val"` yields a single `Val` token and
no EOF token anywhere, so the output does not end with exactly one EOF
token. -/
theorem tokenize_eof_counterexample :
    tokenize "val" = Except.ok [Token.mk 1 1 3 TokenType.val] ∧
    TokenType.eof ∉ List.map Token.ty [Token.mk 1 1 3 TokenType.val] :=
  ⟨rfl, by decide⟩

/-- C2: the claim fails on the code — the unrecognized-character branch of
`Lexer::tokenize` (src/lexer.rs lines 325-334) only prints a diagnostic
and advances the cursor; it pushes no token, so no `Error` token is ever
emitted.  Amended statement: an unmatchable character is silently dropped
(scanning continues past it and tokenization is not aborted), and the
output never contains an `Error` token, as witnessed by `"@val"` lexing to
just the `val` keyword token. -/
theorem tokenize_unmatched_char_skipped :
    (∀ s ts, tokenize s = Except.ok ts → TokenType.error ∉ ts.map Token.ty) ∧
    tokenize "@val" = Except.ok [Token.mk 1 2 3 TokenType.val] := by
  constructor
  · intro s ts h hmem
    rw [List.mem_map] at hmem
    obtain ⟨t, ht, hty⟩ := hmem
    exact (tokenize_ok_forall (fun tt => tt ≠ TokenType.error)
      (fun ch rest tt len hl => (lexDispatch_ok ch rest tt len hl).2)
      s ts h t ht) hty
  · rfl

theorem tokenize_unmatched_char_skipped_witness :
    TokenType.error ∉ List.map Token.ty [Token.mk 1 2 3 TokenType.val] :=
  tokenize_unmatched_char_skipped.1 "@val" _ rfl

/-- C2 counterexample: `"@"` cannot be matched, yet the output is empty —
the character is dropped without emitting a one-character `Error` token. -/
theorem tokenize_error_token_counterexample :
    tokenize "@" = Except.ok [] ∧
    TokenType.error ∉ List.map Token.ty ([] : List Token) :=
  ⟨rfl, by decide⟩

/-- C3 (amended): `"12"` lexes to `Integer("12")` and `"1.5"` to
`Float("1.5")` as claimed, but `"1."` lexes to the single token
`Float("1.")` — `Lexer::match_number` consumes a decimal point even when
no digit follows it (its loop pushes `'.'` before looking ahead), so the
trailing dot is part of the number and the token is classified `Float`. -/
theorem tokenize_number_scanning :
    tokenize "12" = Except.ok [Token.mk 1 1 2 (TokenType.integer "12")] ∧
    tokenize "1.5" = Except.ok [Token.mk 1 1 3 (TokenType.float "1.5")] ∧
    tokenize "1." = Except.ok [Token.mk 1 1 2 (TokenType.float "1.")] :=
  ⟨rfl, rfl, rfl⟩

/-- C3 counterexample: `"1."` produces one `Float("1.")` token, not an
`Integer("1")` token followed by a separate token for the dot. -/
theorem tokenize_trailing_dot_counterexample :
    tokenize "1." = Except.ok [Token.mk 1 1 2 (TokenType.float "1.")] ∧
    TokenType.integer "1" ∉
      List.map Token.ty [Token.mk 1 1 2 (TokenType.float "1.")] :=
  ⟨rfl, by decide⟩

/-- C5: the totality claim is the intended contract, but the code panics
on multi-byte UTF-8 input: `tokenize` advances `cur_idx` by the token's
character count (`match_id_or_kw` counts `len += 1` per char) while
`&self.source[self.cur_idx..]` slices by bytes, so after lexing `"é"`
(two bytes, one char) the next slice starts inside the character and Rust
panics.  In the embedding the panic is the `Except.error ()` value
produced when `dropBytes` lands off a character boundary. -/
theorem tokenize_panics_on_multibyte : tokenize "é" = Except.error () := rfl

/-- C6 (amended): when `Parser::expect` returns a `ParseError`, the error
value carries the cursor position at entry (`let pos = self.pos;` before
consuming), but the cursor itself is not restored: it remains at entry+1
when a mismatched token was consumed, and at the entry position only when
the input was already exhausted. -/
theorem expect_err_pos (ts : List Token) (expected : TokenType) (p : Nat)
    (e : ParseError) (q : Nat) (h : expect ts expected p = PResult.err e q) :
    e.pos = some p ∧ q = if p < ts.length then p + 1 else p := by
  simp only [expect, pm_bind_def, pmBind, getPos, consume] at h
  rcases hg : ts.get? p with _ | t
  · simp only [hg, throwPE] at h
    simp only [PResult.err.injEq] at h
    obtain ⟨rfl, rfl⟩ := h
    have hlen : ts.length ≤ p := List.get?_eq_none.mp hg
    exact ⟨rfl, by rw [if_neg (by omega)]⟩
  · simp only [hg] at h
    by_cases he : t.ty = expected
    · simp [he, pm_pure_def, pmPure] at h
    · rw [if_neg he] at h
      simp only [throwPE, PResult.err.injEq] at h
      obtain ⟨rfl, rfl⟩ := h
      have hlen : p < ts.length := by
        obtain ⟨hlt, -⟩ := List.get?_eq_some.mp hg
        exact hlt
      exact ⟨rfl, by rw [if_pos hlen]⟩

theorem expect_err_pos_witness :
    (ParseError.mk ErrKind.unexpectedToken
      "Expected 'Equal', got 'Val'" (some 0)).pos = some 0 ∧
    1 = if 0 < [Token.mk 1 1 3 TokenType.val].length then 0 + 1 else 0 :=
  expect_err_pos [Token.mk 1 1 3 TokenType.val] TokenType.equal 0
    (ParseError.mk ErrKind.unexpectedToken
      "Expected 'Equal', got 'Val'" (some 0)) 1 rfl

/-- C6 counterexample: `expect` on a mismatched token returns an error but
leaves the cursor at 1, not at its entry value 0 — the attempted position
advance is not discarded. -/
theorem expect_cursor_counterexample :
    expect [Token.mk 1 1 3 TokenType.val] TokenType.equal 0 =
      PResult.err (ParseError.mk ErrKind.unexpectedToken
        "Expected 'Equal', got 'Val'" (some 0)) 1 ∧ (1 : Nat) ≠ 0 :=
  ⟨rfl, by decide⟩

/-!
Helper lemmas about `Parser::parse`: a successful `parse_decls` returns a
nonempty declaration list, and the accumulating `parse` loop never shrinks
its accumulator.
-/

theorem parse_decls_ok_ne_nil (ts : List Token) (fuel p : Nat)
    (ds : List AstNode) (q : Nat)
    (h : parse_decls ts fuel p = PResult.ok ds q) : ds ≠ [] := by
  cases fuel with
  | zero => simp [parse_decls, throwPE] at h
  | succ f =>
    simp only [parse_decls, pm_bind_def, pmBind, getPos] at h
    rcases h1 : parse_decl ts f p with ⟨dec, q1⟩ | ⟨e1, q1⟩
    · simp only [h1] at h
      rcases h2 : parse_decls_loop ts f q1 with ⟨rest, q2⟩ | ⟨e2, q2⟩
      · simp only [h2, List.isEmpty_cons, Bool.false_eq_true, if_false,
          pm_pure_def, pmPure, PResult.ok.injEq] at h
        obtain ⟨h3, -⟩ := h
        rw [← h3]
        simp
      · simp only [h2] at h
        simp at h
    · simp only [h1] at h
      simp at h

theorem parse_loop_acc_ne_nil (ts : List Token) (fuel : Nat) :
    ∀ (acc : List AstNode) (p : Nat) res q,
      parse_loop ts fuel acc p = PResult.ok res q → acc ≠ [] → res ≠ [] := by
  induction fuel with
  | zero => intro acc p res q h; simp [parse_loop, throwPE] at h
  | succ f ih =>
    intro acc p res q h hacc
    simp only [parse_loop, pm_bind_def, pmBind, peek] at h
    rcases hg : (ts.get? p).map Token.ty with _ | tt
    · simp only [hg, pm_pure_def, pmPure, PResult.ok.injEq] at h
      obtain ⟨rfl, -⟩ := h
      exact hacc
    · simp only [hg, pm_bind_def, pmBind] at h
      rcases h2 : parse_decls ts f p with ⟨ds, q1⟩ | ⟨e1, q1⟩
      · simp only [h2] at h
        exact ih (acc ++ ds) q1 res q h
          (fun hh => hacc (List.append_eq_nil.mp hh).1)
      · simp only [h2] at h
        simp at h

/-- C4 (amended): for every nonempty token sequence, if `Parser::parse`
returns `Ok(Program(decls))` then `decls` is nonempty.  The original claim
fails only for the empty token sequence: `parse`'s `while
self.peek().is_some()` loop never runs there, so it returns
`Ok(Program([]))` instead of a `ParseError`. -/
theorem parse_nonempty_program (fuel : Nat) (ts : List Token)
    (decls : List AstNode) (q : Nat) (hne : ts ≠ [])
    (h : parse ts fuel 0 = PResult.ok (AstNode.program decls) q) :
    decls ≠ [] := by
  simp only [parse, pm_bind_def, pmBind] at h
  rcases h1 : parse_loop ts fuel [] 0 with ⟨ds, q1⟩ | ⟨e1, q1⟩
  · simp only [h1, pm_pure_def, pmPure, PResult.ok.injEq,
      AstNode.program.injEq] at h
    obtain ⟨rfl, -⟩ := h
    cases fuel with
    | zero => simp [parse_loop, throwPE] at h1
    | succ f =>
      simp only [parse_loop, pm_bind_def, pmBind, peek] at h1
      rcases ts with _ | ⟨t0, trest⟩
      · exact absurd rfl hne
      · simp only [List.get?, Option.map_some', pm_bind_def, pmBind] at h1
        rcases h2 : parse_decls (t0 :: trest) f 0 with ⟨ds2, q2⟩ | ⟨e2, q2⟩
        · simp only [h2] at h1
          exact parse_loop_acc_ne_nil (t0 :: trest) f ([] ++ ds2) q2 ds q1 h1
            (by simp [parse_decls_ok_ne_nil _ _ _ _ _ h2])
        · simp only [h2] at h1
          simp at h1
  · simp only [h1] at h
    simp at h

theorem parse_nonempty_program_witness :
    [AstNode.valDecl (AstPattern.id "x") none
      (AstNode.literal (LiteralValue.integer "1"))] ≠ ([] : List AstNode) :=
  parse_nonempty_program 20
    [Token.mk 1 1 3 TokenType.val, Token.mk 1 5 1 (TokenType.id "x"),
      Token.mk 1 7 1 TokenType.equal, Token.mk 1 9 1 (TokenType.integer "1")]
    [AstNode.valDecl (AstPattern.id "x") none
      (AstNode.literal (LiteralValue.integer "1"))] 4
    (by decide) rfl

/-- C4 counterexample: on the empty token sequence `Parser::parse`
succeeds with an empty `Program` instead of returning a `ParseError`. -/
theorem parse_empty_tokens_counterexample :
    parse ([] : List Token) 5 0 = PResult.ok (AstNode.program []) 0 := rfl

/-- C7: end-to-end example — lexing and parsing `"val x = 1"` succeeds
with a `Program` of exactly one declaration, a `ValDecl` whose pattern is
`Id("x")`, whose type annotation is `None` and whose expression is
`Literal(Integer("1"))`. -/
theorem parse_val_decl_example :
    tokenize "val x = 1" =
      Except.ok [Token.mk 1 1 3 TokenType.val, Token.mk 1 5 1 (TokenType.id "x"),
        Token.mk 1 7 1 TokenType.equal, Token.mk 1 9 1 (TokenType.integer "1")] ∧
    parse [Token.mk 1 1 3 TokenType.val, Token.mk 1 5 1 (TokenType.id "x"),
        Token.mk 1 7 1 TokenType.equal, Token.mk 1 9 1 (TokenType.integer "1")] 20 0 =
      PResult.ok (AstNode.program [AstNode.valDecl (AstPattern.id "x") none
        (AstNode.literal (LiteralValue.integer "1"))]) 4 :=
  ⟨rfl, rfl⟩

/-- C8: error example — lexing and parsing `"val = 1"` fails with an
`UnexpectedToken` error (raised by `parse_pattern`'s catch-all branch)
whose stored position is 1, the token index of `=`. -/
theorem parse_missing_pattern_example :
    tokenize "val = 1" =
      Except.ok [Token.mk 1 1 3 TokenType.val, Token.mk 1 5 1 TokenType.equal,
        Token.mk 1 7 1 (TokenType.integer "1")] ∧
    parse [Token.mk 1 1 3 TokenType.val, Token.mk 1 5 1 TokenType.equal,
        Token.mk 1 7 1 (TokenType.integer "1")] 20 0 =
      PResult.err (ParseError.mk ErrKind.unexpectedToken
        "Invalid pattern, unexpected token: Equal" (some 1)) 1 :=
  ⟨rfl, rfl⟩

/-- The six token kinds recognised by the comparison-operator table of
`Parser::parse_comp_expr`. -/
def compTokens : List TokenType :=
  [TokenType.less, TokenType.strictLess, TokenType.greater,
   TokenType.strictGreater, TokenType.compEqual, TokenType.compNotEqual]

/-- C9: `parse_comp_expr` maps the not-equal token `CompNotEqual` to the
same `BinOp` tag (`Eq`) as `CompEqual`, and comparison operators chain
left-associatively: `a OP1 b OP2 c` parses as
`BinOp(BinOp(a, OP1, b), OP2, c)` for any comparison tokens OP1, OP2. -/
theorem parse_comp_aliasing_left_assoc :
    compOpOf (some TokenType.compNotEqual) = some BinOp.eq ∧
    compOpOf (some TokenType.compEqual) = some BinOp.eq ∧
    ∀ (a b c : String), ∀ t1 ∈ compTokens, ∀ t2 ∈ compTokens,
      parse_comp_expr [Token.mk 1 1 1 (TokenType.id a), Token.mk 1 1 1 t1,
          Token.mk 1 1 1 (TokenType.id b), Token.mk 1 1 1 t2,
          Token.mk 1 1 1 (TokenType.id c)] 10 0 =
        PResult.ok (AstNode.binOp
          (AstNode.binOp (AstNode.id a) ((compOpOf (some t1)).getD BinOp.eq)
            (AstNode.id b))
          ((compOpOf (some t2)).getD BinOp.eq) (AstNode.id c)) 5 := by
  refine ⟨rfl, rfl, ?_⟩
  intro a b c t1 h1 t2 h2
  fin_cases h1 <;> fin_cases h2 <;> rfl

theorem parse_comp_aliasing_left_assoc_witness :
    parse_comp_expr [Token.mk 1 1 1 (TokenType.id "a"),
        Token.mk 1 1 1 TokenType.compEqual,
        Token.mk 1 1 1 (TokenType.id "b"),
        Token.mk 1 1 1 TokenType.compNotEqual,
        Token.mk 1 1 1 (TokenType.id "c")] 10 0 =
      PResult.ok (AstNode.binOp
        (AstNode.binOp (AstNode.id "a")
          ((compOpOf (some TokenType.compEqual)).getD BinOp.eq)
          (AstNode.id "b"))
        ((compOpOf (some TokenType.compNotEqual)).getD BinOp.eq)
        (AstNode.id "c")) 5 :=
  parse_comp_aliasing_left_assoc.2.2 "a" "b" "c"
    TokenType.compEqual (by decide) TokenType.compNotEqual (by decide)

/-- C10: the lexer/parser pair swaps strict and non-strict comparisons.
The lexeme `<` produces `StrictLess`, which `parse_comp_expr` maps to
`Lte`, while `<=` produces `Less`, which it maps to `Lt` (and symmetrically
for `>`/`>=`), so `"a < b"` parses to a `BinOp` with operator `Lte` and
`"a <= b"` to one with `Lt`, as shown both at the expression level and
end-to-end inside a `val` declaration. -/
theorem comparison_operator_swap :
    tokenize "a < b" = Except.ok [Token.mk 1 1 1 (TokenType.id "a"),
      Token.mk 1 3 1 TokenType.strictLess, Token.mk 1 5 1 (TokenType.id "b")] ∧
    tokenize "a <= b" = Except.ok [Token.mk 1 1 1 (TokenType.id "a"),
      Token.mk 1 3 2 TokenType.less, Token.mk 1 6 1 (TokenType.id "b")] ∧
    tokenize "a > b" = Except.ok [Token.mk 1 1 1 (TokenType.id "a"),
      Token.mk 1 3 1 TokenType.strictGreater, Token.mk 1 5 1 (TokenType.id "b")] ∧
    tokenize "a >= b" = Except.ok [Token.mk 1 1 1 (TokenType.id "a"),
      Token.mk 1 3 2 TokenType.greater, Token.mk 1 6 1 (TokenType.id "b")] ∧
    parse_comp_expr [Token.mk 1 1 1 (TokenType.id "a"),
        Token.mk 1 3 1 TokenType.strictLess, Token.mk 1 5 1 (TokenType.id "b")] 10 0 =
      PResult.ok (AstNode.binOp (AstNode.id "a") BinOp.lte (AstNode.id "b")) 3 ∧
    parse_comp_expr [Token.mk 1 1 1 (TokenType.id "a"),
        Token.mk 1 3 2 TokenType.less, Token.mk 1 6 1 (TokenType.id "b")] 10 0 =
      PResult.ok (AstNode.binOp (AstNode.id "a") BinOp.lt (AstNode.id "b")) 3 ∧
    parse_comp_expr [Token.mk 1 1 1 (TokenType.id "a"),
        Token.mk 1 3 1 TokenType.strictGreater, Token.mk 1 5 1 (TokenType.id "b")] 10 0 =
      PResult.ok (AstNode.binOp (AstNode.id "a") BinOp.gte (AstNode.id "b")) 3 ∧
    parse_comp_expr [Token.mk 1 1 1 (TokenType.id "a"),
        Token.mk 1 3 2 TokenType.greater, Token.mk 1 6 1 (TokenType.id "b")] 10 0 =
      PResult.ok (AstNode.binOp (AstNode.id "a") BinOp.gt (AstNode.id "b")) 3 ∧
    tokenize "val x = a < b" =
      Except.ok [Token.mk 1 1 3 TokenType.val, Token.mk 1 5 1 (TokenType.id "x"),
        Token.mk 1 7 1 TokenType.equal, Token.mk 1 9 1 (TokenType.id "a"),
        Token.mk 1 11 1 TokenType.strictLess, Token.mk 1 13 1 (TokenType.id "b")] ∧
    parse [Token.mk 1 1 3 TokenType.val, Token.mk 1 5 1 (TokenType.id "x"),
        Token.mk 1 7 1 TokenType.equal, Token.mk 1 9 1 (TokenType.id "a"),
        Token.mk 1 11 1 TokenType.strictLess, Token.mk 1 13 1 (TokenType.id "b")] 20 0 =
      PResult.ok (AstNode.program [AstNode.valDecl (AstPattern.id "x") none
        (AstNode.binOp (AstNode.id "a") BinOp.lte (AstNode.id "b"))]) 6 ∧
    tokenize "val x = a <= b" =
      Except.ok [Token.mk 1 1 3 TokenType.val, Token.mk 1 5 1 (TokenType.id "x"),
        Token.mk 1 7 1 TokenType.equal, Token.mk 1 9 1 (TokenType.id "a"),
        Token.mk 1 11 2 TokenType.less, Token.mk 1 14 1 (TokenType.id "b")] ∧
    parse [Token.mk 1 1 3 TokenType.val, Token.mk 1 5 1 (TokenType.id "x"),
        Token.mk 1 7 1 TokenType.equal, Token.mk 1 9 1 (TokenType.id "a"),
        Token.mk 1 11 2 TokenType.less, Token.mk 1 14 1 (TokenType.id "b")] 20 0 =
      PResult.ok (AstNode.program [AstNode.valDecl (AstPattern.id "x") none
        (AstNode.binOp (AstNode.id "a") BinOp.lt (AstNode.id "b"))]) 6 :=
  ⟨rfl, rfl, rfl, rfl, rfl, rfl, rfl, rfl, rfl, rfl, rfl, rfl⟩

end Tinyml
